import Mathlib

/-!
Shallow embedding of `src/main.py` (a GitHub repository update tracker).

The script keeps a per-repository watermark (the last processed commit sha)
in a JSON file, fetches the newest-first page of commits for each configured
repository, summarizes the new commit messages through a remote LLM endpoint,
and reports all summaries of one run as a single GitHub issue.

Modelling conventions:
* Python values flowing through the parsing code are modelled by `Json`.
* A Python exception escaping a function is modelled by `Except PyErr`.
* The network is modelled by an `Env` record: `fetch` yields the newest-first
  commit page of a repository (a bounded window; the `per_page=1` request of
  the first-run branch returns the head of the same page) or a transport
  error, and `ark` yields the summarization endpoint reaction to a prompt.
* Wall-clock time (`get_beijing_time`) is modelled by the constant `Env.now`.
-/

/-- Python exceptions that the embedded fragments can raise. -/
inductive PyErr where
  /-- `ValueError`, e.g. unpacking `repo.split('/')` into two names fails. -/
  | valueError
  /-- `requests.exceptions.RequestException` escaping `raise_for_status`. -/
  | requestError
  /-- `AttributeError`, e.g. calling `.get` or `.strip` on a non-dict/str. -/
  | attributeError
  /-- `TypeError`, e.g. iterating over a non-iterable value. -/
  | typeError
  /-- `UnicodeDecodeError`, reading a file whose bytes are not UTF-8. -/
  | unicodeDecodeError
  /-- `OSError`, `open` failing on an existing file. -/
  | osError
deriving DecidableEq, Repr

/-- JSON values, the shape of data handled by the Python script. -/
inductive Json where
  | null : Json
  | bool : Bool → Json
  | num : Int → Json
  | str : String → Json
  | arr : List Json → Json
  | obj : List (String × Json) → Json
deriving Repr

/-- One commit record from the GitHub commits endpoint: its `sha` and its
`commit.message` text (the only fields the script reads). -/
structure Commit where
  sha : String
  message : String
deriving DecidableEq, Repr

/-- Python truthiness of an optional string: `None` and `""` are falsy.
Used for `if last_commit_sha:` and `if not repo_to_post_issue:`. -/
def pyTruthy : Option String → Bool
  | none => false
  | some s => !(s == "")

/-- Python `str.split(sep)` with a one-character separator over a character
list: empty parts are kept and the empty string yields one empty part. -/
def pySplitList (sep : Char) : List Char → List (List Char)
  | [] => [[]]
  | c :: rest =>
      if c = sep then [] :: pySplitList sep rest
      else
        match pySplitList sep rest with
        | [] => [[c]]
        | part :: parts => (c :: part) :: parts

/-- Python `s.split(sep)` for a one-character separator. -/
def pySplit (s : String) (sep : Char) : List String :=
  (pySplitList sep s.data).map (fun cs => String.mk cs)

/-- ASCII whitespace as stripped by Python `str.strip()`. -/
def isPySpace (c : Char) : Bool :=
  c = ' ' || c = '\t' || c = '\n' || c = '\r' || c = '\x0b' || c = '\x0c'

/-- Python `s.strip()`: surrounding whitespace removed from both ends. -/
def pyStrip (s : String) : String :=
  String.mk (((s.data.dropWhile isPySpace).reverse.dropWhile isPySpace).reverse)

/-- First value stored under a key of a JSON object, Python dict lookup. -/
def lookupField (fields : List (String × Json)) (key : String) : Option Json :=
  (fields.find? (fun p => p.1 == key)).map (fun p => p.2)

/-- Python `value.get(key, default)`: succeeds only on a dict, raising
`AttributeError` on every other value, exactly as `.get` does. -/
def jsonGet (j : Json) (key : String) (default : Json) : Except PyErr Json :=
  match j with
  | Json.obj fields => Except.ok ((lookupField fields key).getD default)
  | _ => Except.error PyErr.attributeError

/-- Python `for item in value`: a list yields its items, a string yields its
characters, a dict yields its keys, anything else raises `TypeError`. -/
def jsonIter (j : Json) : Except PyErr (List Json) :=
  match j with
  | Json.arr xs => Except.ok xs
  | Json.str s => Except.ok (s.toList.map (fun c => Json.str (String.singleton c)))
  | Json.obj fields => Except.ok (fields.map (fun p => Json.str p.1))
  | _ => Except.error PyErr.typeError

/-- Python `repr` of a JSON value (used by `str` on containers). -/
def pyRepr : Json → String
  | Json.null => "None"
  | Json.bool true => "True"
  | Json.bool false => "False"
  | Json.num n => toString n
  | Json.str s =>
      String.singleton (Char.ofNat 39) ++ s ++ String.singleton (Char.ofNat 39)
  | Json.arr xs =>
      "[" ++ String.intercalate ", " (xs.attach.map (fun x => pyRepr x.1)) ++ "]"
  | Json.obj fields =>
      "\x7b" ++
        String.intercalate ", "
          (fields.attach.map (fun p =>
            String.singleton (Char.ofNat 39) ++ p.1.1 ++
              String.singleton (Char.ofNat 39) ++ ": " ++ pyRepr p.1.2)) ++
        "\x7d"
decreasing_by
  · have h1 : sizeOf x.1 < sizeOf xs := List.sizeOf_lt_of_mem x.2
    simp only [Json.arr.sizeOf_spec]
    omega
  · have h1 : sizeOf p.1 < sizeOf fields := List.sizeOf_lt_of_mem p.2
    have h2 : sizeOf p.1.2 < sizeOf p.1 := by
      obtain ⟨a, b⟩ := p.1
      simp
    simp only [Json.obj.sizeOf_spec]
    omega

/-- Python `str` of a JSON value, as interpolated by an f-string. -/
def pyStr : Json → String
  | Json.null => "None"
  | Json.bool true => "True"
  | Json.bool false => "False"
  | Json.num n => toString n
  | Json.str s => s
  | Json.arr xs => pyRepr (Json.arr xs)
  | Json.obj fields => pyRepr (Json.obj fields)

/-- What the script finds when it opens one of its JSON files. -/
inductive FileContent where
  /-- `os.path.exists` is false. -/
  | absent
  /-- the file exists but `open` raises `OSError` (e.g. no read permission). -/
  | unreadable
  /-- the file exists but its bytes do not decode as UTF-8, so reading inside
  `json.load` raises `UnicodeDecodeError`. -/
  | invalidUtf8
  /-- the file exists and decodes as UTF-8, but `json.load` raises
  `JSONDecodeError`. -/
  | invalidJson
  /-- the file exists and parses to this JSON value. -/
  | content (j : Json)

/-- `load_json` of `src/main.py`: a missing file yields the empty dict `{}`,
and so does a `JSONDecodeError` — the only exception the handler catches.
`open` is outside the `try`, so `OSError` escapes, and a `UnicodeDecodeError`
raised while `json.load` reads a non-UTF-8 file escapes the
`JSONDecodeError`-only `except` clause as well. -/
def load_json : FileContent → Except PyErr Json
  | FileContent.absent => Except.ok (Json.obj [])
  | FileContent.unreadable => Except.error PyErr.osError
  | FileContent.invalidUtf8 => Except.error PyErr.unicodeDecodeError
  | FileContent.invalidJson => Except.ok (Json.obj [])
  | FileContent.content j => Except.ok j

/-- Reaction of the summarization endpoint to one request. -/
inductive ArkResponse where
  /-- `requests.post`, `raise_for_status` or `response.json` raised a
  `requests.exceptions.RequestException` rendering as this message. -/
  | transportError (msg : String)
  /-- a 2xx response whose body parsed to this JSON value. -/
  | success (body : Json)

/-- The prompt built by `summarize_commits_with_llm`: the commit messages are
joined one per line, each prefixed by `"- "`, inside the fixed instruction. -/
def buildPrompt (commit_messages : List String) : String :=
  let messages_str := String.intercalate "\n" (commit_messages.map (fun msg => "- " ++ msg))
  "\n    请用中文总结以下 Git commit 信息的核心功能变动、修复和主要更新。\n" ++
    "    要求总结内容精炼、清晰、易于理解。\n\n    Commit Messages:\n    " ++
    messages_str ++ "\n\n    总结:\n    "

/-- Python `==` as used by the scan, which only ever compares a fetched value
against a string literal: two scalars compare by value, and a comparison
involving a container or mixed kinds is `False` (Python never errors here). -/
instance : BEq Json := ⟨fun a b =>
  match a, b with
  | Json.null, Json.null => true
  | Json.bool x, Json.bool y => x == y
  | Json.num x, Json.num y => x == y
  | Json.str x, Json.str y => x == y
  | _, _ => false⟩

/-- The inner loop of the response scan: for each `content_item` of a matching
message, test `content_item.get('type') == 'output_text'` and return the
stripped `content_item.get('text', '')`.  A non-dict `content_item` raises
`AttributeError` on `.get`; a non-string text raises it on `.strip`. -/
def findSummaryInContent : List Json → Except PyErr (Option String)
  | [] => Except.ok none
  | content_item :: rest => do
      let t ← jsonGet content_item "type" Json.null
      if t == Json.str "output_text" then
        let text ← jsonGet content_item "text" (Json.str "")
        match text with
        | Json.str s => Except.ok (some (pyStrip s))
        | _ => Except.error PyErr.attributeError
      else findSummaryInContent rest

/-- The outer loop of the response scan: an `output` item participates when
`item.get('type') == 'message' and item.get('role') == 'assistant'`; its
`content` is then iterated looking for the first `output_text` payload, and
the scan continues with later items when none is found there. -/
def findSummaryInOutput : List Json → Except PyErr (Option String)
  | [] => Except.ok none
  | item :: rest => do
      let t ← jsonGet item "type" Json.null
      if t == Json.str "message" then
        let r ← jsonGet item "role" Json.null
        if r == Json.str "assistant" then
          let content_list ← jsonGet item "content" (Json.arr [])
          let items ← jsonIter content_list
          match ← findSummaryInContent items with
          | some s => Except.ok (some s)
          | none => findSummaryInOutput rest
        else findSummaryInOutput rest
      else findSummaryInOutput rest

/-- The response-parsing tail of `summarize_commits_with_llm`: scan
`response_data.get('output', [])` for the first assistant `output_text`
payload; otherwise fall back to the message of `response_data.get('error',
...)` inside a descriptive string. -/
def extractArkSummary (response_data : Json) : Except PyErr String :=
  match jsonGet response_data "output" (Json.arr []) with
  | Except.error e => Except.error e
  | Except.ok output_list =>
      match jsonIter output_list with
      | Except.error e => Except.error e
      | Except.ok items =>
          match findSummaryInOutput items with
          | Except.error e => Except.error e
          | Except.ok (some summary) => Except.ok summary
          | Except.ok none =>
              match jsonGet response_data "error"
                  (Json.obj [("message", Json.str "Summary not found in response structure")]) with
              | Except.error e => Except.error e
              | Except.ok error_info =>
                  match jsonGet error_info "message" Json.null with
                  | Except.error e => Except.error e
                  | Except.ok msg =>
                      Except.ok ("Could not extract summary from Ark API response: " ++ pyStr msg)

/-- `summarize_commits_with_llm` of `src/main.py`.  `ark` is the environment
reaction of the endpoint to the posted prompt.  A missing (or empty, hence
falsy) `ARK_API_KEY` short-circuits to the fixed placeholder before any
network activity; a transport failure is caught and rendered; a successful
response goes through the defensive scan, whose own Python errors escape
this function (only `RequestException` is caught by its handler). -/
def summarize_commits_with_llm (arkApiKey : Option String)
    (ark : String → ArkResponse) (commit_messages : List String) :
    Except PyErr String :=
  if !pyTruthy arkApiKey then
    Except.ok "Could not summarize commits: API key is missing."
  else
    match ark (buildPrompt commit_messages) with
    | ArkResponse.transportError e =>
        Except.ok ("Error during summarization: " ++ e)
    | ArkResponse.success response_data => extractArkSummary response_data

/-- The external world of one run.  `fetch repo` is the newest-first page of
commits that the GitHub commits endpoint serves for `repo` in this run (a
bounded window, not the full history), or a transport error; the `per_page=1`
request of the first-run branch returns the head of the same page.  `ark` is
the summarization endpoint (see `ArkResponse`).  `now` is the fixed string
`get_beijing_time` renders during this run. -/
structure Env where
  fetch : String → Except String (List Commit)
  arkApiKey : Option String
  ark : String → ArkResponse
  now : String

/-- `get_new_commits` of `src/main.py`.  Unpacking `repo.split('/')` into
`owner, repo_name` raises `ValueError` unless it yields exactly two parts; a
failing fetch raises through `raise_for_status`.  With a truthy
`last_commit_sha` the newest-first page is scanned, collecting commits until
the watermark is met (`break`) or the page ends, and the collection is
returned reversed (oldest first); otherwise only the single most recent
commit is requested and returned. -/
def get_new_commits (env : Env) (repo : String) (last_commit_sha : Option String) :
    Except PyErr (List Commit) :=
  if (pySplit repo '/').length ≠ 2 then Except.error PyErr.valueError
  else
    match env.fetch repo with
    | Except.error _ => Except.error PyErr.requestError
    | Except.ok page =>
        if pyTruthy last_commit_sha then
          Except.ok ((page.takeWhile (fun c => c.sha != last_commit_sha.getD "")).reverse)
        else
          Except.ok (page.take 1)

/-- Python dict lookup `d.get(k)` on the watermark mapping (with the unique
keys a dict guarantees): value of the first matching key, else `None`. -/
def dictGet : List (String × String) → String → Option String
  | [], _ => none
  | (k', v') :: rest, k => if k' == k then some v' else dictGet rest k

/-- Python dict assignment `d[k] = v` on the watermark mapping (with the
unique keys a dict guarantees): replace in place or append. -/
def dictSet : List (String × String) → String → String → List (String × String)
  | [], k, v => [(k, v)]
  | (k', v') :: rest, k, v =>
      if k' == k then (k, v) :: rest else (k', v') :: dictSet rest k v

/-- The body of `main`'s per-repository loop for one `repo`: fetch the new
commits, skip when there are none, summarize the messages, record the
markdown section, and advance the watermark to the newest (last, since
oldest-first) commit.  Both `except` arms catch any raised error and leave
the accumulated state untouched. -/
def processRepo (env : Env) (last_commits : List (String × String))
    (all_summaries : List String) (repo : String) :
    List (String × String) × List String :=
  match get_new_commits env repo (dictGet last_commits repo) with
  | Except.error _ => (last_commits, all_summaries)
  | Except.ok new_commits =>
      if h : new_commits = [] then (last_commits, all_summaries)
      else
        match summarize_commits_with_llm env.arkApiKey env.ark
            (new_commits.map Commit.message) with
        | Except.error _ => (last_commits, all_summaries)
        | Except.ok summary =>
            (dictSet last_commits repo (new_commits.getLast h).sha,
             all_summaries ++
               ["## " ++ repo ++ " - " ++ env.now ++ "\n\n" ++ summary ++ "\n\n---\n"])

/-- `main`'s loop over the configured repositories, threading the watermark
mapping and the accumulated summary sections. -/
def runLoop (env : Env) (repositories : List String)
    (last_commits : List (String × String)) :
    List (String × String) × List String :=
  repositories.foldl (fun st repo => processRepo env st.1 st.2 repo)
    (last_commits, ([] : List String))

/-- `create_github_issue` of `src/main.py`, observed as the issue-creation
request it submits.  Unpacking `repo_name.split('/')` raises `ValueError`
unless it yields two parts; the POST itself is wrapped in try/except, so a
transport failure is only logged and the call still returns. -/
def create_github_issue (repo_name title body : String) :
    Except PyErr (String × String) :=
  if (pySplit repo_name '/').length ≠ 2 then Except.error PyErr.valueError
  else Except.ok (title, body)

/-- Observable outcome of one completed run of `main`. -/
structure RunOutcome where
  /-- the in-memory watermark mapping when the loop ends. -/
  last_commits : List (String × String)
  /-- the accumulated `all_summaries` sections, in processing order. -/
  all_summaries : List String
  /-- the issue-creation request submitted, when one is. -/
  issue : Option (String × String)
  /-- the mapping written back to `last_commits.json`, when it is. -/
  saved : Option (List (String × String))
deriving DecidableEq, Repr

/-- `main` of `src/main.py` after its two `load_json` reads:
`github_repository` is the `GITHUB_REPOSITORY` variable, `repositories` the
configured list, `last_commits` the loaded watermark mapping.  Missing issue
target or empty configuration end the run early; otherwise the loop runs and,
when at least one summary was accumulated, one issue is submitted (titled
with the run's date, the text before the first space of the timestamp) and
the watermark file is saved.  An error escaping `create_github_issue` is not
caught and aborts the run before the save. -/
def mainRun (env : Env) (github_repository : Option String)
    (repositories : List String) (last_commits : List (String × String)) :
    Except PyErr RunOutcome :=
  if !pyTruthy github_repository then
    Except.ok ⟨last_commits, [], none, none⟩
  else if repositories.isEmpty then
    Except.ok ⟨last_commits, [], none, none⟩
  else if (runLoop env repositories last_commits).2.isEmpty then
    Except.ok ⟨(runLoop env repositories last_commits).1,
      (runLoop env repositories last_commits).2, none, none⟩
  else
    match create_github_issue (github_repository.getD "")
        ("每日更新摘要 - " ++ (pySplit env.now ' ').headD "")
        (String.join (runLoop env repositories last_commits).2) with
    | Except.error e => Except.error e
    | Except.ok issue =>
        Except.ok ⟨(runLoop env repositories last_commits).1,
          (runLoop env repositories last_commits).2, some issue,
          some (runLoop env repositories last_commits).1⟩

/-- The spec's discriminator path, restated from its words: a payload item
matches when it is a message object with assistant role whose content list
holds an item of type output_text.  Used to express that a response contains
no matching payload item. -/
def specItemMatches (item : Json) : Bool :=
  match item with
  | Json.obj fields =>
      (lookupField fields "type" == some (Json.str "message")) &&
      (lookupField fields "role" == some (Json.str "assistant")) &&
      (match lookupField fields "content" with
       | some (Json.arr cs) =>
           cs.any (fun ci =>
             match ci with
             | Json.obj cf => lookupField cf "type" == some (Json.str "output_text")
             | _ => false)
       | _ => false)
  | _ => false

/-- Spec-side test that a summarization response carries a payload item
matching the expected discriminator path. -/
def specHasSummaryPayload (response : Json) : Bool :=
  match response with
  | Json.obj fields =>
      match lookupField fields "output" with
      | some (Json.arr items) => items.any specItemMatches
      | _ => false
  | _ => false

/-! ## Helper lemmas -/

theorem dictGet_dictSet_self (d : List (String × String)) (k v : String) :
    dictGet (dictSet d k v) k = some v := by
  induction d with
  | nil => simp [dictGet, dictSet]
  | cons p rest ih =>
      obtain ⟨k', v'⟩ := p
      by_cases h : k' = k
      · simp [dictGet, dictSet, h]
      · simp [dictGet, dictSet, h, ih]

theorem dictGet_dictSet_ne (d : List (String × String)) (k k' v : String)
    (h : k' ≠ k) : dictGet (dictSet d k' v) k = dictGet d k := by
  induction d with
  | nil => simp [dictGet, dictSet, h]
  | cons p rest ih =>
      obtain ⟨a, b⟩ := p
      by_cases ha : a = k'
      · subst ha
        simp [dictGet, dictSet, h]
      · by_cases hak : a = k
        · subst hak
          simp [dictGet, dictSet, ha, Ne.symm h]
        · simp [dictGet, dictSet, ha, hak, ih]

/-- The watermark mapping leaving one loop body is either untouched or has
exactly the processed repository's entry set. -/
theorem processRepo_wm_cases (env : Env) (wm : List (String × String))
    (sums : List String) (repo : String) :
    (processRepo env wm sums repo).1 = wm ∨
    ∃ v, (processRepo env wm sums repo).1 = dictSet wm repo v := by
  unfold processRepo
  split
  · exact Or.inl rfl
  · split
    · exact Or.inl rfl
    · split
      · exact Or.inl rfl
      · exact Or.inr ⟨_, rfl⟩

/-- Processing one repository never disturbs another repository's entry. -/
theorem processRepo_dictGet_ne (env : Env) (wm : List (String × String))
    (sums : List String) (r repo : String) (h : r ≠ repo) :
    dictGet (processRepo env wm sums r).1 repo = dictGet wm repo := by
  rcases processRepo_wm_cases env wm sums r with h1 | ⟨v, h1⟩
  · rw [h1]
  · rw [h1, dictGet_dictSet_ne wm repo r v h]

/-- Folding the loop over repositories that do not mention `repo` leaves
`repo`'s watermark entry unchanged. -/
theorem foldl_processRepo_dictGet_ne (env : Env) (rs : List String)
    (repo : String) :
    repo ∉ rs → ∀ wm sums,
      dictGet ((rs.foldl (fun st r => processRepo env st.1 st.2 r) (wm, sums)).1) repo =
        dictGet wm repo := by
  induction rs with
  | nil => intro _ wm sums; rfl
  | cons r rest ih =>
      intro h wm sums
      have hr : r ≠ repo := fun he => h (he ▸ List.mem_cons_self r rest)
      have hrest : repo ∉ rest := fun hm => h (List.mem_cons_of_mem r hm)
      rw [List.foldl_cons]
      have := ih hrest (processRepo env wm sums r).1 (processRepo env wm sums r).2
      calc dictGet ((rest.foldl (fun st rr => processRepo env st.1 st.2 rr)
              (processRepo env wm sums r)).1) repo
      _ = dictGet (processRepo env wm sums r).1 repo := this
      _ = dictGet wm repo := processRepo_dictGet_ne env wm sums r repo hr

/-- A failing fetch makes `get_new_commits` raise, whatever the watermark. -/
theorem get_new_commits_fetch_error (env : Env) (repo : String)
    (last_commit_sha : Option String) (e : String)
    (h : env.fetch repo = Except.error e) :
    ∃ pe, get_new_commits env repo last_commit_sha = Except.error pe := by
  unfold get_new_commits
  by_cases hs : (pySplit repo '/').length ≠ 2
  · exact ⟨PyErr.valueError, by rw [if_pos hs]⟩
  · exact ⟨PyErr.requestError, by rw [if_neg hs, h]⟩

/-- A loop body whose `get_new_commits` raises leaves the state untouched. -/
theorem processRepo_of_error (env : Env) (wm : List (String × String))
    (sums : List String) (repo : String) (pe : PyErr)
    (h : get_new_commits env repo (dictGet wm repo) = Except.error pe) :
    processRepo env wm sums repo = (wm, sums) := by
  unfold processRepo
  rw [h]

theorem head?_dropWhile_negates {α : Type} (p : α → Bool) (l : List α) :
    ∀ c, (l.dropWhile p).head? = some c → p c = false := by
  induction l with
  | nil => intro c h; simp [List.dropWhile] at h
  | cons a rest ih =>
      intro c h
      by_cases hp : p a
      · rw [List.dropWhile_cons, if_pos hp] at h
        exact ih c h
      · rw [List.dropWhile_cons, if_neg hp] at h
        simp only [List.head?_cons, Option.some.injEq] at h
        rw [← h]
        exact Bool.eq_false_iff.mpr hp

/-- A repository whose loop body is a no-op drops out of the run: the run
equals the run without it, and its watermark entry keeps its initial value
when no other processed repository carries the same name. -/
theorem runLoop_skips_noop (env : Env) (pre post : List String) (repo : String)
    (wm0 : List (String × String))
    (hmid : ∀ wm sums, processRepo env wm sums repo = (wm, sums))
    (hpre : repo ∉ pre) (hpost : repo ∉ post) :
    runLoop env (pre ++ repo :: post) wm0 = runLoop env (pre ++ post) wm0 ∧
    dictGet (runLoop env (pre ++ repo :: post) wm0).1 repo = dictGet wm0 repo := by
  have h1 : runLoop env (pre ++ repo :: post) wm0 = runLoop env (pre ++ post) wm0 := by
    unfold runLoop
    rw [List.foldl_append, List.foldl_append, List.foldl_cons]
    congr 1
    exact hmid _ _
  refine ⟨h1, ?_⟩
  rw [h1]
  unfold runLoop
  rw [List.foldl_append]
  calc dictGet ((post.foldl (fun st r => processRepo env st.1 st.2 r)
          (pre.foldl (fun st r => processRepo env st.1 st.2 r) (wm0, []))).1) repo
  _ = dictGet ((pre.foldl (fun st r => processRepo env st.1 st.2 r) (wm0, [])).1) repo :=
      foldl_processRepo_dictGet_ne env post repo hpost _ _
  _ = dictGet wm0 repo := foldl_processRepo_dictGet_ne env pre repo hpre wm0 []

/-! ## Concrete fixtures for witnesses and counterexamples -/

/-- Newest commit of the fixture page. -/
def cNewest : Commit := ⟨"a1", "m newest"⟩

/-- Middle commit of the fixture page. -/
def cMiddle : Commit := ⟨"b2", "m mid"⟩

/-- Oldest commit of the fixture page. -/
def cOldest : Commit := ⟨"c3", "m old"⟩

/-- A well-formed Ark response holding one assistant `output_text` item. -/
def goodArkBody : Json :=
  Json.obj [("output", Json.arr [Json.obj
    [("type", Json.str "message"), ("role", Json.str "assistant"),
     ("content", Json.arr [Json.obj
       [("type", Json.str "output_text"), ("text", Json.str " the summary ")]])]])]

/-- An Ark response body on which the response scan raises: the output list
holds a bare string, and `.get` on a string is an `AttributeError`. -/
def badArkBody : Json := Json.obj [("output", Json.arr [Json.str "oops"])]

/-- Environment whose upstream serves three commits (newest first) for every
repository and whose summarization endpoint answers well-formedly. -/
def envGood : Env :=
  ⟨fun _ => Except.ok [cNewest, cMiddle, cOldest], some "key",
   fun _ => ArkResponse.success goodArkBody, "2026-10-12 08:00:00 BJT"⟩

/-- Like `envGood`, but the summarization endpoint answers with the
ill-shaped `badArkBody`. -/
def envBadArk : Env :=
  ⟨fun _ => Except.ok [cNewest, cMiddle, cOldest], some "key",
   fun _ => ArkResponse.success badArkBody, "2026-10-12 08:00:00 BJT"⟩

/-- Like `envGood`, but the commit fetch fails for `err/repo`. -/
def envFetchErr : Env :=
  ⟨fun repo => if repo = "err/repo" then Except.error "boom"
     else Except.ok [cNewest, cMiddle, cOldest], some "key",
   fun _ => ArkResponse.success goodArkBody, "2026-10-12 08:00:00 BJT"⟩

/-! ## The claims -/

/-- C9 counterexample: a state file whose bytes do not decode as UTF-8 is
unparsable, yet `load_json` raises `UnicodeDecodeError` — the handler catches
only `JSONDecodeError` — instead of returning the empty mapping, and the run
dies before processing any repository. -/
theorem load_json_raises_counterexample :
    load_json FileContent.invalidUtf8 = Except.error PyErr.unicodeDecodeError ∧
    load_json FileContent.invalidUtf8 ≠ Except.ok (Json.obj []) :=
  ⟨rfl, fun h => Except.noConfusion h⟩

/-- C9 (amended): a missing watermark file, and an existing one whose UTF-8
text fails JSON parsing, both load as the empty mapping without raising, so
first-run semantics apply per repository in those two cases; a file whose
bytes do not decode as UTF-8 (or that cannot be opened) instead raises. -/
theorem load_json_graceful :
    load_json FileContent.absent = Except.ok (Json.obj []) ∧
    load_json FileContent.invalidJson = Except.ok (Json.obj []) :=
  ⟨rfl, rfl⟩

/-- C7: with the summarization credential absent, the adapter returns the
fixed placeholder for every input list, and the result never depends on the
endpoint's behaviour — no network call can influence it. -/
theorem missing_key_placeholder (ark ark' : String → ArkResponse)
    (commit_messages commit_messages' : List String) :
    summarize_commits_with_llm none ark commit_messages =
      Except.ok "Could not summarize commits: API key is missing." ∧
    summarize_commits_with_llm none ark commit_messages =
      summarize_commits_with_llm none ark' commit_messages' :=
  ⟨rfl, rfl⟩

/-- C2: with no stored watermark, detection returns exactly the single most
recent commit of the upstream feed, whatever else the page holds. -/
theorem first_run_single_commit (env : Env) (repo : String) (page : List Commit)
    (hsplit : (pySplit repo '/').length = 2)
    (hfetch : env.fetch repo = Except.ok page)
    (hne : page ≠ []) :
    get_new_commits env repo none = Except.ok [page.head hne] := by
  unfold get_new_commits
  rw [if_neg (fun h => h hsplit), hfetch]
  cases page with
  | nil => exact absurd rfl hne
  | cons a t => simp [pyTruthy]

/-- Witness: `first_run_single_commit` on the three-commit fixture page. -/
theorem first_run_single_commit_witness :
    get_new_commits envGood "o/r" none =
      Except.ok [([cNewest, cMiddle, cOldest] : List Commit).head (by decide)] :=
  first_run_single_commit envGood "o/r" [cNewest, cMiddle, cOldest]
    (by decide) rfl (by decide)

/-- C1: with a stored (truthy) watermark, `get_new_commits` returns exactly
the commits strictly before the watermark commit in the upstream newest-first
page, reversed to oldest-first: the result reversed is the watermark-free
prefix of the page, the page element following that prefix (when one exists)
is the watermark commit, and the watermark commit itself is excluded. -/
theorem incremental_detection_exact (env : Env) (repo : String)
    (page new_commits : List Commit) (sha : String)
    (hsha : sha ≠ "")
    (hfetch : env.fetch repo = Except.ok page)
    (hget : get_new_commits env repo (some sha) = Except.ok new_commits) :
    new_commits.reverse ++ page.dropWhile (fun c => c.sha != sha) = page ∧
    (∀ c ∈ new_commits, c.sha ≠ sha) ∧
    (∀ c, (page.dropWhile (fun c => c.sha != sha)).head? = some c → c.sha = sha) := by
  have hnc : new_commits = (page.takeWhile (fun c => c.sha != sha)).reverse := by
    unfold get_new_commits at hget
    by_cases hs : (pySplit repo '/').length ≠ 2
    · rw [if_pos hs] at hget
      exact absurd hget (by simp)
    · rw [if_neg hs, hfetch] at hget
      simp [pyTruthy, hsha] at hget
      exact hget.symm
  subst hnc
  refine ⟨?_, ?_, ?_⟩
  · rw [List.reverse_reverse]
    exact List.takeWhile_append_dropWhile _ _
  · intro c hc
    rw [List.mem_reverse] at hc
    have hp := List.mem_takeWhile_imp hc
    simpa using hp
  · intro c hc
    have h := head?_dropWhile_negates (fun c => c.sha != sha) page c hc
    simpa using h

/-- Witness: `incremental_detection_exact` with watermark `b2` in the middle
of the fixture page, detecting exactly the one newer commit. -/
theorem incremental_detection_exact_witness :
    ([cNewest] : List Commit).reverse ++
        ([cNewest, cMiddle, cOldest] : List Commit).dropWhile (fun c => c.sha != "b2") =
      [cNewest, cMiddle, cOldest] ∧
    (∀ c ∈ ([cNewest] : List Commit), c.sha ≠ "b2") ∧
    (∀ c, (([cNewest, cMiddle, cOldest] : List Commit).dropWhile
        (fun c => c.sha != "b2")).head? = some c → c.sha = "b2") :=
  incremental_detection_exact envGood "o/r" [cNewest, cMiddle, cOldest] [cNewest]
    "b2" (by decide) rfl rfl

/-- C5: an upstream transport error while fetching one repository's commits
is absorbed at the per-repository boundary: the run result equals that of the
run without the failed repository (so every remaining repository is still
processed exactly as before), and the failed repository's watermark entry
keeps its initial value. -/
theorem upstream_error_isolated (env : Env) (pre post : List String)
    (repo : String) (wm0 : List (String × String)) (e : String)
    (hfetch : env.fetch repo = Except.error e)
    (hpre : repo ∉ pre) (hpost : repo ∉ post) :
    runLoop env (pre ++ repo :: post) wm0 = runLoop env (pre ++ post) wm0 ∧
    dictGet (runLoop env (pre ++ repo :: post) wm0).1 repo = dictGet wm0 repo := by
  apply runLoop_skips_noop env pre post repo wm0 ?_ hpre hpost
  intro wm sums
  obtain ⟨pe, hpe⟩ := get_new_commits_fetch_error env repo (dictGet wm repo) e hfetch
  exact processRepo_of_error env wm sums repo pe hpe

/-- Witness: `upstream_error_isolated` on a run over three repositories where
the middle one's fetch fails; the other two still process and produce their
summaries, and the failed one keeps no watermark entry. -/
theorem upstream_error_isolated_witness :
    runLoop envFetchErr (["x/y"] ++ "err/repo" :: ["z/w"]) [] =
      runLoop envFetchErr (["x/y"] ++ ["z/w"]) [] ∧
    dictGet (runLoop envFetchErr (["x/y"] ++ "err/repo" :: ["z/w"]) []).1 "err/repo" =
      dictGet [] "err/repo" :=
  upstream_error_isolated envFetchErr ["x/y"] ["z/w"] "err/repo" [] "boom"
    rfl (by decide) (by decide)

/-- C10: a configured repository identifier that does not split into exactly
two parts on a slash fails inside the per-repository boundary and is caught:
its loop body is a no-op in every environment (in particular no summarization
has any effect for it), the run equals the run without it, and its watermark
entry keeps its initial value. -/
theorem malformed_repo_isolated (env : Env) (pre post : List String)
    (repo : String) (wm0 : List (String × String))
    (hsplit : (pySplit repo '/').length ≠ 2)
    (hpre : repo ∉ pre) (hpost : repo ∉ post) :
    (∀ wm sums, processRepo env wm sums repo = (wm, sums)) ∧
    runLoop env (pre ++ repo :: post) wm0 = runLoop env (pre ++ post) wm0 ∧
    dictGet (runLoop env (pre ++ repo :: post) wm0).1 repo = dictGet wm0 repo := by
  have hmid : ∀ wm sums, processRepo env wm sums repo = (wm, sums) := by
    intro wm sums
    apply processRepo_of_error env wm sums repo PyErr.valueError
    unfold get_new_commits
    rw [if_pos hsplit]
  obtain ⟨h1, h2⟩ := runLoop_skips_noop env pre post repo wm0 hmid hpre hpost
  exact ⟨hmid, h1, h2⟩

/-- Witness: `malformed_repo_isolated` for the slash-free identifier `bad`
between two well-formed repositories. -/
theorem malformed_repo_isolated_witness :
    runLoop envGood (["x/y"] ++ "bad" :: ["z/w"]) [] =
      runLoop envGood (["x/y"] ++ ["z/w"]) [] ∧
    dictGet (runLoop envGood (["x/y"] ++ "bad" :: ["z/w"]) []).1 "bad" =
      dictGet [] "bad" :=
  ⟨(malformed_repo_isolated envGood ["x/y"] ["z/w"] "bad" []
      (by decide) (by decide) (by decide)).2.1,
   (malformed_repo_isolated envGood ["x/y"] ["z/w"] "bad" []
      (by decide) (by decide) (by decide)).2.2⟩

/-- C3 counterexample: the stored watermark `zz` is absent from the page, and
detection does return the whole page oldest-first; but in the same run an
ill-shaped summarization response makes the caught error skip the update, so
the watermark stays at `zz` and does not advance to the newest commit. -/
theorem scrolled_off_watermark_counterexample :
    get_new_commits envBadArk "o/r" (some "zz") =
      Except.ok [cOldest, cMiddle, cNewest] ∧
    dictGet (runLoop envBadArk ["o/r"] [("o/r", "zz")]).1 "o/r" = some "zz" ∧
    dictGet (runLoop envBadArk ["o/r"] [("o/r", "zz")]).1 "o/r" ≠ some cNewest.sha :=
  ⟨rfl, rfl, by decide⟩

/-- C3 (amended): when the upstream page no longer contains the stored
watermark commit, incremental detection returns all commits of the page
(oldest first) and — provided the summarization call for the repository
returns a string instead of raising — the repository's watermark advances to
the page's newest commit. -/
theorem scrolled_off_all_new (env : Env) (repo sha : String)
    (page : List Commit) (wm : List (String × String)) (sums : List String)
    (s : String)
    (hsha : sha ≠ "")
    (hw : dictGet wm repo = some sha)
    (hsplit : (pySplit repo '/').length = 2)
    (hfetch : env.fetch repo = Except.ok page)
    (hnotin : ∀ c ∈ page, c.sha ≠ sha)
    (hsum : summarize_commits_with_llm env.arkApiKey env.ark
      (page.reverse.map Commit.message) = Except.ok s) :
    get_new_commits env repo (some sha) = Except.ok page.reverse ∧
    ∀ c, page.head? = some c →
      dictGet (processRepo env wm sums repo).1 repo = some c.sha := by
  have htw : page.takeWhile (fun c => c.sha != sha) = page :=
    List.takeWhile_eq_self_iff.mpr (fun c hc => bne_iff_ne.mpr (hnotin c hc))
  have hget : get_new_commits env repo (some sha) = Except.ok page.reverse := by
    unfold get_new_commits
    rw [if_neg (fun h => h hsplit), hfetch]
    simp [pyTruthy, hsha, htw]
  refine ⟨hget, ?_⟩
  intro c hc
  have hpne : page ≠ [] := by
    intro he
    rw [he] at hc
    simp at hc
  have hrne : page.reverse ≠ [] := fun he => hpne (List.reverse_eq_nil_iff.mp he)
  unfold processRepo
  rw [hw, hget]
  dsimp only
  rw [dif_neg hrne, hsum]
  dsimp only
  rw [dictGet_dictSet_self]
  have hgl : page.reverse.getLast? = some c := by
    rw [List.getLast?_reverse]
    exact hc
  rw [List.getLast?_eq_getLast _ hrne] at hgl
  simp only [Option.some.injEq] at hgl
  rw [hgl]

/-- Witness: `scrolled_off_all_new` with watermark `zz` scrolled off the
fixture page and a well-formed summarization response. -/
theorem scrolled_off_all_new_witness :
    dictGet (processRepo envGood [("o/r", "zz")] [] "o/r").1 "o/r" =
      some cNewest.sha :=
  (scrolled_off_all_new envGood "o/r" "zz" [cNewest, cMiddle, cOldest]
      [("o/r", "zz")] [] "the summary" (by decide) rfl (by decide) rfl
      (by decide) rfl).2 cNewest rfl

/-- C4 counterexample: on a first run detection returns one new commit, yet
the ill-shaped summarization response makes the caught error skip the
watermark update, so after the run the repository's entry is absent rather
than equal to the newest returned sha. -/
theorem run_watermark_counterexample :
    get_new_commits envBadArk "o/r" (dictGet [] "o/r") = Except.ok [cNewest] ∧
    dictGet (runLoop envBadArk ["o/r"] []).1 "o/r" = none ∧
    dictGet (runLoop envBadArk ["o/r"] []).1 "o/r" ≠ some cNewest.sha :=
  ⟨rfl, rfl, by decide⟩

/-- C4 (amended): after any run in which detection for a repository returned
at least one new commit and the summarization call for it returned a string
(did not raise), the in-memory watermark entry for that repository equals
the sha of the newest commit returned for it — and so does the entry of the
persisted mapping whenever the run saves one. -/
theorem run_watermark_advances (env : Env) (pre post : List String)
    (repo : String) (wm0 : List (String × String)) (ncs : List Commit)
    (c : Commit) (s : String)
    (hpost : repo ∉ post)
    (hget : get_new_commits env repo (dictGet (runLoop env pre wm0).1 repo) =
      Except.ok ncs)
    (hlast : ncs.getLast? = some c)
    (hsum : summarize_commits_with_llm env.arkApiKey env.ark
      (ncs.map Commit.message) = Except.ok s) :
    dictGet (runLoop env (pre ++ repo :: post) wm0).1 repo = some c.sha ∧
    ∀ gh out, mainRun env gh (pre ++ repo :: post) wm0 = Except.ok out →
      ∀ m, out.saved = some m → dictGet m repo = some c.sha := by
  have hne : ncs ≠ [] := by
    intro he
    rw [he] at hlast
    simp at hlast
  have hgl : ncs.getLast hne = c := by
    have h := List.getLast?_eq_getLast ncs hne
    rw [hlast] at h
    simpa using h.symm
  have h1 : dictGet (processRepo env (runLoop env pre wm0).1
      (runLoop env pre wm0).2 repo).1 repo = some c.sha := by
    unfold processRepo
    rw [hget]
    dsimp only
    rw [dif_neg hne, hsum]
    dsimp only
    rw [dictGet_dictSet_self, hgl]
  have hrl : runLoop env (pre ++ repo :: post) wm0 =
      post.foldl (fun st r => processRepo env st.1 st.2 r)
        (processRepo env (runLoop env pre wm0).1 (runLoop env pre wm0).2 repo) := by
    unfold runLoop
    rw [List.foldl_append, List.foldl_cons]
  have hmem : dictGet (runLoop env (pre ++ repo :: post) wm0).1 repo = some c.sha := by
    rw [hrl]
    exact (foldl_processRepo_dictGet_ne env post repo hpost _ _).trans h1
  refine ⟨hmem, ?_⟩
  intro gh out hrun m hm
  unfold mainRun at hrun
  cases hgh : pyTruthy gh with
  | false =>
      rw [hgh] at hrun
      simp only [Bool.not_false, if_true, Except.ok.injEq] at hrun
      rw [← hrun] at hm
      simp at hm
  | true =>
      rw [hgh] at hrun
      simp only [Bool.not_true, Bool.false_eq_true, if_false] at hrun
      rw [if_neg (by simp)] at hrun
      by_cases hemp : (runLoop env (pre ++ repo :: post) wm0).2.isEmpty
      · rw [if_pos hemp] at hrun
        simp only [Except.ok.injEq] at hrun
        rw [← hrun] at hm
        simp at hm
      · rw [if_neg hemp] at hrun
        cases hci : create_github_issue (gh.getD "")
            ("每日更新摘要 - " ++ (pySplit env.now ' ').headD "")
            (String.join (runLoop env (pre ++ repo :: post) wm0).2) with
        | error e =>
            rw [hci] at hrun
            simp at hrun
        | ok issue =>
            rw [hci] at hrun
            simp only [Except.ok.injEq] at hrun
            rw [← hrun] at hm
            simp only [Option.some.injEq] at hm
            rw [← hm]
            exact hmem

/-- Witness: `run_watermark_advances` for a single-repository first run in
the well-behaved environment. -/
theorem run_watermark_advances_witness :
    dictGet (runLoop envGood ([] ++ "o/r" :: []) []).1 "o/r" = some cNewest.sha :=
  (run_watermark_advances envGood [] [] "o/r" [] [cNewest] cNewest "the summary"
    (by decide) rfl rfl rfl).1

/-- C6 counterexample: a response whose output list holds a bare string has
no payload item matching the discriminator path, yet the adapter raises an
`AttributeError` (escaping its `RequestException`-only handler) instead of
returning a fallback string. -/
theorem summarize_raises_counterexample :
    specHasSummaryPayload badArkBody = false ∧
    summarize_commits_with_llm (some "key")
        (fun _ => ArkResponse.success badArkBody) ["msg"] =
      Except.error PyErr.attributeError :=
  ⟨rfl, rfl⟩

/-- C6 (amended): for every summarization response that is a JSON object on
which the discriminator scan completes without a Python error and finds no
matching payload, and whose error field — when present — is an object, the
adapter returns the descriptive missing-field fallback string rather than
raising. -/
theorem fallback_on_missing_payload (key : String) (ark : String → ArkResponse)
    (commit_messages : List String) (fields : List (String × Json))
    (output_list : Json) (items : List Json)
    (hkey : key ≠ "")
    (hark : ark (buildPrompt commit_messages) = ArkResponse.success (Json.obj fields))
    (hout : jsonGet (Json.obj fields) "output" (Json.arr []) = Except.ok output_list)
    (hiter : jsonIter output_list = Except.ok items)
    (hfind : findSummaryInOutput items = Except.ok none)
    (herr : ∀ j, lookupField fields "error" = some j →
      ∃ efields, j = Json.obj efields) :
    ∃ m, summarize_commits_with_llm (some key) ark commit_messages =
      Except.ok ("Could not extract summary from Ark API response: " ++ pyStr m) := by
  have hkb : pyTruthy (some key) = true := by
    simp [pyTruthy, hkey]
  unfold summarize_commits_with_llm
  simp only [hkb, Bool.not_true, Bool.false_eq_true, if_false]
  rw [hark]
  dsimp only
  unfold extractArkSummary
  rw [hout]
  dsimp only
  rw [hiter]
  dsimp only
  rw [hfind]
  dsimp only [jsonGet]
  cases hl : lookupField fields "error" with
  | none =>
      exact ⟨Json.str "Summary not found in response structure", rfl⟩
  | some j =>
      obtain ⟨efields, rfl⟩ := herr j hl
      exact ⟨(lookupField efields "message").getD Json.null, rfl⟩

/-- Witness: `fallback_on_missing_payload` on a response with an empty output
list and no error field. -/
theorem fallback_on_missing_payload_witness :
    ∃ m, summarize_commits_with_llm (some "key")
        (fun _ => ArkResponse.success (Json.obj [("output", Json.arr [])])) ["msg"] =
      Except.ok ("Could not extract summary from Ark API response: " ++ pyStr m) :=
  fallback_on_missing_payload "key"
    (fun _ => ArkResponse.success (Json.obj [("output", Json.arr [])])) ["msg"]
    [("output", Json.arr [])] (Json.arr []) [] (by decide) rfl rfl rfl rfl
    (fun j h => Option.noConfusion h)

/-- C8 counterexample: a run that did produce a summary, but whose reporting
repository identifier `noslash` does not split into two parts, crashes in
`create_github_issue` before any issue is submitted and before the state
file is saved — against the claim that such a run creates an issue and
writes the state. -/
theorem issue_crash_counterexample :
    (runLoop envGood ["o/r"] []).2 ≠ [] ∧
    mainRun envGood (some "noslash") ["o/r"] [] = Except.error PyErr.valueError :=
  ⟨by decide, rfl⟩

/-- C8 (amended): provided the reporting repository identifier is of the
`owner/name` form, a completed run with at least one accumulated summary
submits exactly one issue, titled with the run's date, whose body is the
concatenation of all summaries in processing order, and saves the watermark
state; a completed run with no summary submits no issue and saves nothing. -/
theorem single_issue_and_save (env : Env) (gh : String)
    (repositories : List String) (wm0 : List (String × String))
    (hsplit : (pySplit gh '/').length = 2) :
    ∀ out, mainRun env (some gh) repositories wm0 = Except.ok out →
      (out.all_summaries ≠ [] →
        out.issue = some ("每日更新摘要 - " ++ (pySplit env.now ' ').headD "",
          String.join out.all_summaries) ∧
        out.saved = some out.last_commits) ∧
      (out.all_summaries = [] → out.issue = none ∧ out.saved = none) := by
  intro out hrun
  unfold mainRun at hrun
  cases hgh : pyTruthy (some gh) with
  | false =>
      rw [hgh] at hrun
      simp only [Bool.not_false, if_true, Except.ok.injEq] at hrun
      subst hrun
      exact ⟨fun h => absurd rfl h, fun _ => ⟨rfl, rfl⟩⟩
  | true =>
      rw [hgh] at hrun
      simp only [Bool.not_true, Bool.false_eq_true, if_false] at hrun
      by_cases hre : repositories.isEmpty
      · rw [if_pos hre] at hrun
        simp only [Except.ok.injEq] at hrun
        subst hrun
        exact ⟨fun h => absurd rfl h, fun _ => ⟨rfl, rfl⟩⟩
      · rw [if_neg hre] at hrun
        by_cases hemp : (runLoop env repositories wm0).2.isEmpty
        · rw [if_pos hemp] at hrun
          simp only [Except.ok.injEq] at hrun
          subst hrun
          refine ⟨fun h => ?_, fun _ => ⟨rfl, rfl⟩⟩
          dsimp only at h
          rw [List.isEmpty_iff] at hemp
          exact absurd hemp h
        · rw [if_neg hemp] at hrun
          simp only [Option.getD_some] at hrun
          have hci : create_github_issue gh
              ("每日更新摘要 - " ++ (pySplit env.now ' ').headD "")
              (String.join (runLoop env repositories wm0).2) =
              Except.ok ("每日更新摘要 - " ++ (pySplit env.now ' ').headD "",
                String.join (runLoop env repositories wm0).2) := by
            unfold create_github_issue
            rw [if_neg (fun h => h hsplit)]
          rw [hci] at hrun
          simp only [Except.ok.injEq] at hrun
          subst hrun
          refine ⟨fun _ => ⟨rfl, rfl⟩, fun h => ?_⟩
          dsimp only at h
          rw [h] at hemp
          simp at hemp

/-- One markdown section as accumulated by the fixture run. -/
def sectionGood : String :=
  "## o/r - 2026-10-12 08:00:00 BJT\n\nthe summary\n\n---\n"

/-- The outcome of the fixture run of `envGood` over `o/r` alone. -/
def outGood : RunOutcome :=
  ⟨[("o/r", "a1")], [sectionGood],
   some ("每日更新摘要 - 2026-10-12", sectionGood), some [("o/r", "a1")]⟩

/-- Witness: `single_issue_and_save` on the fixture run, which accumulates
one summary, submits the titled issue and saves the advanced watermark. -/
theorem single_issue_and_save_witness :
    outGood.issue = some ("每日更新摘要 - " ++ (pySplit envGood.now ' ').headD "",
      String.join outGood.all_summaries) ∧
    outGood.saved = some outGood.last_commits :=
  (single_issue_and_save envGood "me/track" ["o/r"] [] (by decide) outGood rfl).1
    (by decide)
